import Mathlib

/-!
Shallow embedding of the gomemcache client (package memcache, file
memcache.go) for verifying the specification claims.

Conventions of the embedding:
* Go byte strings (keys, protocol lines, value payloads) are `List Nat`,
  one entry per byte.  All protocol byte constants are spelled out as
  their ASCII codes.
* The distinguished error values of the package become constructors of
  the inductive type `Err`; errors produced by `fmt.Errorf` at distinct
  program points become distinct constructors carrying their data, which
  mirrors Go's identity-based error comparison (`switch err { case ... }`
  compares against the package-level sentinel values).
* Network effects are abstracted into explicit environments: the server
  selector, the connection acquisition outcome and the bytes a server
  answers are inputs, and the observable interactions (asking the
  selector, acquiring a connection) are recorded as an event trace.
-/

/-- The error values of the package.  The seven sentinel `errors.New`
values are nullary constructors; errors fabricated with `fmt.Errorf`
(or returned by I/O and `strconv`) carry their distinguishing data so
that equality in the model coincides with Go's identity comparison. -/
inductive Err where
  /-- `ErrCacheMiss` -/
  | errCacheMiss
  /-- `ErrCASConflict` -/
  | errCASConflict
  /-- `ErrNotStored` -/
  | errNotStored
  /-- `ErrServerError` -/
  | errServerError
  /-- `ErrNoStats` -/
  | errNoStats
  /-- `ErrMalformedKey` -/
  | errMalformedKey
  /-- `ErrNoServers` -/
  | errNoServers
  /-- `ConnectTimeoutError{addr}` -/
  | connectTimeout (addr : Nat)
  /-- a transport read/write error, including EOF from `ReadSlice` -/
  | ioError
  /-- `fmt.Errorf("memcache: corrupt get result read")` -/
  | corruptGetResult
  /-- `fmt.Errorf("memcache: unexpected line in get response: %q", line)` -/
  | unexpectedGetLine (line : List Nat)
  /-- `fmt.Errorf("memcache: unexpected response line from %q: %q", verb, line)` -/
  | unexpectedStoreLine (verb : Nat) (line : List Nat)
  /-- `fmt.Errorf("memcache: unexpected response line: %q", line)` -/
  | unexpectedRespLine (line : List Nat)
  /-- `errors.New("memcache: client error: " + msg)` on incr/decr -/
  | clientError (msg : List Nat)
  /-- a `strconv.ParseUint` failure on incr/decr -/
  | strconvError
  deriving DecidableEq, Repr

/-- Source `resumableError(err)`: true exactly for the four protocol-level
cache errors (the `switch` compares against the sentinel values). -/
def resumableError : Err → Bool
  | .errCacheMiss => true
  | .errCASConflict => true
  | .errNotStored => true
  | .errMalformedKey => true
  | _ => false

/-- Spec-side classifier (from the spec's words, for comparison): the
"server-error-class" errors are the malformed-response / corrupt-framing
errors fabricated by the protocol engine. -/
def isServerErrorKind : Err → Bool
  | .corruptGetResult => true
  | .unexpectedGetLine _ => true
  | .unexpectedStoreLine _ _ => true
  | .unexpectedRespLine _ => true
  | _ => false

/-- Source `legalKey(key)`: reject keys longer than 250 bytes and keys
holding a byte that is `<= ' '` (0x20) or `> 0x7e`.  Note the source
accepts the empty key: the byte loop over an empty key never runs. -/
def legalKey (key : List Nat) : Bool :=
  if key.length > 250 then false
  else key.all (fun b => ! (decide (b ≤ 32) || decide (b > 126)))

/-- What `condRelease` does with a connection. -/
inductive ConnAction where
  /-- `cn.release()`: hand the connection back to the pool -/
  | release
  /-- `cn.nc.Close()`: destroy the transport -/
  | close
  deriving DecidableEq, Repr

/-- Source `(cn *conn) condRelease(err *error)`: release when the final
error is nil or resumable, otherwise close the transport. -/
def condRelease (err : Option Err) : ConnAction :=
  match err with
  | none => .release
  | some e => if resumableError e then .release else .close

/-- Source `Item`: key, value, flags, expiration and the opaque CAS id.
The `Object` field (codec slot, never touched by the core) is omitted. -/
structure Item where
  Key : List Nat
  Value : List Nat
  Flags : Nat
  Expiration : Int
  casid : Nat
  deriving DecidableEq, Repr

/-- The three store verbs handled by `populateOne`.  Each is also given
its numeric tag for embedding in `Err.unexpectedStoreLine`. -/
inductive Verb where
  | set
  | add
  | cas
  deriving DecidableEq, Repr

/-- Numeric tag of a verb (used only to keep the offending verb inside
the unexpected-response error, as the source formats `%q` with it). -/
def Verb.tag : Verb → Nat
  | .set => 0
  | .add => 1
  | .cas => 2

/-- `crlf = []byte("\r\n")` -/
def crlf : List Nat := [13, 10]

/-- `resultStored = []byte("STORED\r\n")` -/
def resultStored : List Nat := [83, 84, 79, 82, 69, 68, 13, 10]

/-- `resultNotStored = []byte("NOT_STORED\r\n")` -/
def resultNotStored : List Nat := [78, 79, 84, 95, 83, 84, 79, 82, 69, 68, 13, 10]

/-- `resultExists = []byte("EXISTS\r\n")` -/
def resultExists : List Nat := [69, 88, 73, 83, 84, 83, 13, 10]

/-- `resultNotFound = []byte("NOT_FOUND\r\n")` -/
def resultNotFound : List Nat := [78, 79, 84, 95, 70, 79, 85, 78, 68, 13, 10]

/-- `resultDeleted = []byte("DELETED\r\n")` -/
def resultDeleted : List Nat := [68, 69, 76, 69, 84, 69, 68, 13, 10]

/-- `resultEnd = []byte("END\r\n")` -/
def resultEnd : List Nat := [69, 78, 68, 13, 10]

/-- `resultClientErrorPrefix = []byte("CLIENT_ERROR ")` (renamed: the
embedding calls it `clientErrorPre`). -/
def clientErrorPre : List Nat := [67, 76, 73, 69, 78, 84, 95, 69, 82, 82, 79, 82, 32]

/-- The token `VALUE` opening a get-response record line. -/
def valueTok : List Nat := [86, 65, 76, 85, 69]

/-- The response-line classification inside `populateOne` (the `switch`
after `ReadSlice('\n')`). -/
def classifyStore (verb : Verb) (line : List Nat) : Option Err :=
  if line = resultStored then none
  else if line = resultNotStored then some .errNotStored
  else if line = resultExists then some .errCASConflict
  else if line = resultNotFound then some .errCacheMiss
  else some (.unexpectedStoreLine verb.tag line)

/-- Source `populateOne(rw, verb, item)`: check `legalKey` first, then
write the request and classify the single response line.  The writes,
the flush and the `ReadSlice` are abstracted into the `lineRes`
argument: a write/flush/read failure is `.error e` (the source returns
that error before the `switch`), a successful read is `.ok line`. -/
def populateOne (verb : Verb) (item : Item) (lineRes : Except Err (List Nat)) : Option Err :=
  if ¬ legalKey item.Key then some .errMalformedKey
  else
    match lineRes with
    | .error e => some e
    | .ok line => classifyStore verb line

/-- Source `writeExpectf(rw, expect, format, args...)`: classify the one
response line of delete-style commands against the expected success
line.  Write/flush/read failures are the `.error` case of `lineRes`. -/
def writeExpectf (expect : List Nat) (lineRes : Except Err (List Nat)) : Option Err :=
  match lineRes with
  | .error e => some e
  | .ok line =>
    if line = expect then none
    else if line = resultNotStored then some .errNotStored
    else if line = resultExists then some .errCASConflict
    else if line = resultNotFound then some .errCacheMiss
    else some (.unexpectedRespLine line)

/-- `bufio.Reader.ReadSlice('\n')`: the bytes up to and including the
first newline, plus the remaining stream; `none` when the stream ends
with no newline (the source then gets a non-nil error and returns it). -/
def readLine : List Nat → Option (List Nat × List Nat)
  | [] => none
  | b :: rest =>
    if b = 10 then some ([10], rest)
    else
      match readLine rest with
      | none => none
      | some (l, r) => some (b :: l, r)

/-- Split a byte list at every space byte (0x20). -/
def splitSpaceGo : List Nat → List Nat → List (List Nat)
  | [], cur => [cur.reverse]
  | b :: rest, cur =>
    if b = 32 then cur.reverse :: splitSpaceGo rest []
    else splitSpaceGo rest (b :: cur)

/-- Tokens of a byte list, separated by single spaces. -/
def splitSpace (l : List Nat) : List (List Nat) := splitSpaceGo l []

/-- Is the byte an ASCII decimal digit? -/
def isDigit (b : Nat) : Bool := decide (48 ≤ b) && decide (b ≤ 57)

/-- Decimal value of a digit list. -/
def decVal (l : List Nat) : Nat := l.foldl (fun a b => a * 10 + (b - 48)) 0

/-- Parse an unsigned decimal token (the `%d` conversions of `Sscanf`
and `strconv.ParseUint` on a non-negative number). -/
def parseDec (l : List Nat) : Option Nat :=
  if l.isEmpty then none
  else if l.all isDigit then some (decVal l) else none

/-- Source `scanGetResponseLine(line, it)`: dispatch on the space count
of the line (3 spaces selects the `VALUE %s %d %d\r\n` pattern without
a cas id, otherwise `VALUE %s %d %d %d\r\n`), scan the fields and
return the populated item together with the declared size.  The `%d`
conversions fail on overflow of the destination (`uint32` flags,
`int` size, `uint64` cas id).  Any mismatch yields the
unexpected-line error of the source. -/
def scanGetResponseLine (line : List Nat) : Except Err (Item × Nat) :=
  if crlf.isSuffixOf line then
    let toks := splitSpace (line.take (line.length - 2))
    if line.count 32 = 3 then
      match toks with
      | [v, key, flagsTok, sizeTok] =>
        match parseDec flagsTok, parseDec sizeTok with
        | some flags, some size =>
          if v = valueTok ∧ flags < 2 ^ 32 ∧ size < 2 ^ 63 then
            .ok ({ Key := key, Value := [], Flags := flags, Expiration := 0, casid := 0 }, size)
          else .error (.unexpectedGetLine line)
        | _, _ => .error (.unexpectedGetLine line)
      | _ => .error (.unexpectedGetLine line)
    else
      match toks with
      | [v, key, flagsTok, sizeTok, casTok] =>
        match parseDec flagsTok, parseDec sizeTok, parseDec casTok with
        | some flags, some size, some cas =>
          if v = valueTok ∧ flags < 2 ^ 32 ∧ size < 2 ^ 63 ∧ cas < 2 ^ 64 then
            .ok ({ Key := key, Value := [], Flags := flags, Expiration := 0, casid := cas }, size)
          else .error (.unexpectedGetLine line)
        | _, _, _ => .error (.unexpectedGetLine line)
      | _ => .error (.unexpectedGetLine line)
  else .error (.unexpectedGetLine line)

/-- The loop body of `parseGetResponse(r, cb)`, with the stream made
explicit.  Each iteration reads one line; `END\r\n` terminates; a
`VALUE` header of declared size `size` is followed by
`ioutil.ReadAll(io.LimitReader(r, int64(size)+2))`, which reads at
most `size+2` bytes and returns no error at end of stream
(modelled by `take`/`drop`); the suffix of what was read must be
`\r\n` or the result is the corrupt-read error; the value handed to
the callback is the first `size` bytes of what was read.  The result
is the list of items handed to the callback together with the final
error, if any.  Recursion is by fuel; every iteration consumes at
least one byte, so `stream.length + 1` fuel always suffices. -/
def parseGo : Nat → List Nat → List Item × Option Err
  | 0, _ => ([], some .ioError)
  | fuel + 1, stream =>
    match readLine stream with
    | none => ([], some .ioError)
    | some (line, rest) =>
      if line = resultEnd then ([], none)
      else
        match scanGetResponseLine line with
        | .error e => ([], some e)
        | .ok (it, size) =>
          let value := rest.take (size + 2)
          if crlf.isSuffixOf value then
            let r := parseGo fuel (rest.drop (size + 2))
            ({ it with Value := value.take size } :: r.1, r.2)
          else ([], some .corruptGetResult)

/-- Source `parseGetResponse(r, cb)` run on a whole byte stream. -/
def parseGetResponse (stream : List Nat) : List Item × Option Err :=
  parseGo (stream.length + 1) stream

/-- `maxIdleConnsPerAddr = 2` -/
def maxIdleConnsPerAddr : Nat := 2

/-- The free-connection pool `freeconn map[string][]*conn`, with
addresses and connections as opaque numeric identifiers. -/
abbrev Pool := List (Nat × List Nat)

/-- The free list the map holds for an address (absent key reads as the
empty slice, exactly as a Go map read). -/
def poolLookup (p : Pool) (addr : Nat) : List Nat :=
  match p with
  | [] => []
  | (a, l) :: rest => if a = addr then l else poolLookup rest addr

/-- Store a free list under an address (Go map assignment). -/
def poolSet (p : Pool) (addr : Nat) (l : List Nat) : Pool :=
  match p with
  | [] => [(addr, l)]
  | (a, l0) :: rest =>
    if a = addr then (addr, l) :: rest else (a, l0) :: poolSet rest addr l

/-- Source `putFreeConn(addr, cn)`: when the free list already holds
`maxIdleConnsPerAddr` entries, close the transport and drop the
connection (second component lists the closed connections), otherwise
append it at the tail.  The pool lock is a no-op in this sequential
model. -/
def putFreeConn (p : Pool) (addr cn : Nat) : Pool × List Nat :=
  let freelist := poolLookup p addr
  if freelist.length ≥ maxIdleConnsPerAddr then (p, [cn])
  else (poolSet p addr (freelist ++ [cn]), [])

/-- Source `getFreeConn(addr)`: take the last element of the free list
(`freelist[len(freelist)-1]`) and store back the rest
(`freelist[:len(freelist)-1]`); an absent or empty list yields none. -/
def getFreeConn (p : Pool) (addr : Nat) : Option Nat × Pool :=
  let freelist := poolLookup p addr
  if freelist.isEmpty then (none, p)
  else (freelist.getLast?, poolSet p addr freelist.dropLast)

/-- An abstract pool interaction, for stating the pool-bound invariant
over every reachable pool state. -/
inductive PoolOp where
  | put (addr cn : Nat)
  | get (addr : Nat)
  deriving DecidableEq, Repr

/-- Run a sequence of pool interactions. -/
def runPoolOps (p : Pool) : List PoolOp → Pool
  | [] => p
  | .put a c :: rest => runPoolOps (putFreeConn p a c).1 rest
  | .get a :: rest => runPoolOps (getFreeConn p a).2 rest

/-- An observable interaction of an operation with the outside world:
asking the selector for a key's server, or acquiring (pool or dial) a
connection to an address. -/
inductive Ev where
  | pick (key : List Nat)
  | conn (addr : Nat)
  deriving DecidableEq, Repr

/-- The environment an operation runs against: the selector's answer
per key (`PickServer`), the outcome of `getConn` per address, the one
response line a connection yields for single-line commands, and the
whole response stream a server answers to a `gets`. -/
structure OpEnv where
  pick : List Nat → Except Err Nat
  conn : Nat → Except Err Unit
  line : Nat → Except Err (List Nat)
  stream : Nat → List Nat

/-- Source `getFromAddr(addr, keys, cb)` stripped of its wrapper:
acquire the connection, send the `gets`, parse the response.  The items
handed to the callback and the final error are returned.  The keys only
shape the request line, which is not observable in the model. -/
def getFromAddr (env : OpEnv) (addr : Nat) : List Item × Option Err :=
  match env.conn addr with
  | .error e => ([], some e)
  | .ok _ => parseGetResponse (env.stream addr)

/-- Source `Get(key)`: `withKeyAddr` validates the key before asking the
selector, then `getFromAddr` collects items; the callback overwrites
`item`, so the last delivered item wins; a nil error with no item
becomes `ErrCacheMiss`.  The second component is the event trace. -/
def GetOp (env : OpEnv) (key : List Nat) : (Option Item × Option Err) × List Ev :=
  if ¬ legalKey key then ((none, some .errMalformedKey), [])
  else
    match env.pick key with
    | .error e => ((none, some e), [.pick key])
    | .ok addr =>
      let r := getFromAddr env addr
      let item := r.1.getLast?
      let err := if r.2 = none ∧ item = none then some Err.errCacheMiss else r.2
      ((item, err), [.pick key, .conn addr])

/-- Source `Delete(key)`: `withKeyRw` (key validation, selector, and
connection acquisition, in that order) around `writeExpectf` against
`resultDeleted`. -/
def DeleteOp (env : OpEnv) (key : List Nat) : Option Err × List Ev :=
  if ¬ legalKey key then (some .errMalformedKey, [])
  else
    match env.pick key with
    | .error e => (some e, [.pick key])
    | .ok addr =>
      match env.conn addr with
      | .error e => (some e, [.pick key, .conn addr])
      | .ok _ => (writeExpectf resultDeleted (env.line addr), [.pick key, .conn addr])

/-- The response classification of `incrDecr`: `NOT_FOUND\r\n` is a
cache miss; a `CLIENT_ERROR ` prefix becomes a client error carrying
`line[len(prefix):len(line)-2]`; otherwise `strconv.ParseUint` of
`line[:len(line)-2]` yields the new value. -/
def incrDecrClassify (line : List Nat) : Except Err Nat :=
  if line = resultNotFound then .error .errCacheMiss
  else if clientErrorPre.isPrefixOf line then
    .error (.clientError ((line.take (line.length - 2)).drop clientErrorPre.length))
  else
    match parseDec (line.take (line.length - 2)) with
    | none => .error .strconvError
    | some v => if v < 2 ^ 64 then .ok v else .error .strconvError

/-- Source `incrDecr(verb, key, delta)` with `withKeyRw` inlined (the
source captures `val` through a closure): key validation, selector,
connection, then one written line and one read line.  The verb and
delta only shape the request line, which is not observable. -/
def incrDecrOp (env : OpEnv) (key : List Nat) : (Nat × Option Err) × List Ev :=
  if ¬ legalKey key then ((0, some .errMalformedKey), [])
  else
    match env.pick key with
    | .error e => ((0, some e), [.pick key])
    | .ok addr =>
      match env.conn addr with
      | .error e => ((0, some e), [.pick key, .conn addr])
      | .ok _ =>
        match env.line addr with
        | .error e => ((0, some e), [.pick key, .conn addr])
        | .ok line =>
          match incrDecrClassify line with
          | .error e => ((0, some e), [.pick key, .conn addr])
          | .ok v => ((v, none), [.pick key, .conn addr])

/-- Source `Increment(key, delta)` (delta only shapes the request). -/
def IncrementOp (env : OpEnv) (key : List Nat) (_delta : Nat) : (Nat × Option Err) × List Ev :=
  incrDecrOp env key

/-- Source `Decrement(key, delta)` (delta only shapes the request). -/
def DecrementOp (env : OpEnv) (key : List Nat) (_delta : Nat) : (Nat × Option Err) × List Ev :=
  incrDecrOp env key

/-- Source `onItem(item, fn)`: ask the selector, acquire the connection,
run the verb's `populateOne`, all before any key validation (the
`legalKey` check lives inside `populateOne`). -/
def onItemOp (env : OpEnv) (verb : Verb) (item : Item) : Option Err × List Ev :=
  match env.pick item.Key with
  | .error e => (some e, [.pick item.Key])
  | .ok addr =>
    match env.conn addr with
    | .error e => (some e, [.pick item.Key, .conn addr])
    | .ok _ => (populateOne verb item (env.line addr), [.pick item.Key, .conn addr])

/-- Source `Set(item)`. -/
def SetOp (env : OpEnv) (item : Item) : Option Err × List Ev :=
  onItemOp env .set item

/-- Source `Add(item)`. -/
def AddOp (env : OpEnv) (item : Item) : Option Err × List Ev :=
  onItemOp env .add item

/-- Source `CompareAndSwap(item)`. -/
def CasOp (env : OpEnv) (item : Item) : Option Err × List Ev :=
  onItemOp env .cas item

/-- Go map write `m[it.Key] = it` on the association-list result map. -/
def mapInsert (m : List (List Nat × Item)) (k : List Nat) (v : Item) : List (List Nat × Item) :=
  match m with
  | [] => [(k, v)]
  | (k0, v0) :: rest => if k0 = k then (k, v) :: rest else (k0, v0) :: mapInsert rest k v

/-- Go map read `m[k]` on the association-list result map. -/
def mapLookup (m : List (List Nat × Item)) (k : List Nat) : Option Item :=
  match m with
  | [] => none
  | (k0, v0) :: rest => if k0 = k then some v0 else mapLookup rest k

/-- The `addItemToMap` callback of `GetMulti`, applied to every item one
task delivered. -/
def addItemsToMap (m : List (List Nat × Item)) (items : List Item) : List (List Nat × Item) :=
  items.foldl (fun m it => mapInsert m it.Key it) m

/-- `keyMap[addr] = append(keyMap[addr], key)`: append a key at the tail
of its address bucket. -/
def addKeyToMap (m : List (Nat × List (List Nat))) (addr : Nat) (k : List Nat) :
    List (Nat × List (List Nat)) :=
  match m with
  | [] => [(addr, [k])]
  | (a, ks) :: rest =>
    if a = addr then (a, ks ++ [k]) :: rest else (a, ks) :: addKeyToMap rest addr k

/-- The first loop of `GetMulti`: validate each key and bucket it by the
selector's address; an illegal key or a selector error aborts the whole
call with that error (the source does `return nil, err`). -/
def buildKeyMapGo (env : OpEnv) (m : List (Nat × List (List Nat))) :
    List (List Nat) → Except Err (List (Nat × List (List Nat)))
  | [] => .ok m
  | k :: ks =>
    if ¬ legalKey k then .error .errMalformedKey
    else
      match env.pick k with
      | .error e => .error e
      | .ok addr => buildKeyMapGo env (addKeyToMap m addr k) ks

/-- Key bucketing of `GetMulti`, starting from the empty map. -/
def buildKeyMap (env : OpEnv) (keys : List (List Nat)) :
    Except Err (List (Nat × List (List Nat))) :=
  buildKeyMapGo env [] keys

/-- The fan-out and aggregation loops of `GetMulti`, sequentialized: one
`getFromAddr` per bucket, every delivered item written into the result
map, and the last non-nil sub-task error kept (`if ge := <-ch; ge != nil
{ err = ge }`). -/
def runTasksGo (env : OpEnv) (m : List (List Nat × Item)) (err : Option Err) :
    List (Nat × List (List Nat)) → List (List Nat × Item) × Option Err
  | [] => (m, err)
  | (addr, _ks) :: rest =>
    let r := getFromAddr env addr
    runTasksGo env (addItemsToMap m r.1) (if r.2.isSome then r.2 else err) rest

/-- Source `GetMulti(keys)`: bucket the keys (aborting with a nil map on
a validation or selector error), then run one task per bucket and merge.
`none` in the first component is Go's nil map; a reached fan-out phase
always returns the (possibly empty) merged map. -/
def getMulti (env : OpEnv) (keys : List (List Nat)) :
    Option (List (List Nat × Item)) × Option Err :=
  match buildKeyMap env keys with
  | .error e => (none, some e)
  | .ok groups =>
    let r := runTasksGo env [] none groups
    (some r.1, r.2)

/-! ## Helper lemmas about the pool map -/

theorem poolLookup_poolSet_self (p : Pool) (a : Nat) (l : List Nat) :
    poolLookup (poolSet p a l) a = l := by
  induction p with
  | nil => simp [poolSet, poolLookup]
  | cons hd t ih =>
    obtain ⟨a0, l0⟩ := hd
    by_cases hp : a0 = a <;> simp [poolSet, poolLookup, hp, ih]

theorem poolLookup_poolSet_ne (p : Pool) (a b : Nat) (l : List Nat) (h : a ≠ b) :
    poolLookup (poolSet p a l) b = poolLookup p b := by
  induction p with
  | nil => simp [poolSet, poolLookup, h]
  | cons hd t ih =>
    obtain ⟨a0, l0⟩ := hd
    by_cases hp : a0 = a
    · subst hp; simp [poolSet, poolLookup, h]
    · simp [poolSet, poolLookup, hp, ih]

theorem poolSet_poolSet (p : Pool) (a : Nat) (l1 l2 : List Nat) :
    poolSet (poolSet p a l1) a l2 = poolSet p a l2 := by
  induction p with
  | nil => simp [poolSet]
  | cons hd t ih =>
    obtain ⟨a0, l0⟩ := hd
    by_cases hp : a0 = a <;> simp [poolSet, hp, ih]

/-- Every free list of the pool is within the idle cap. -/
def poolBounded (p : Pool) : Prop :=
  ∀ a, (poolLookup p a).length ≤ maxIdleConnsPerAddr

theorem poolBounded_nil : poolBounded [] := by
  intro a; simp [poolLookup]

theorem poolBounded_put (p : Pool) (a c : Nat) (h : poolBounded p) :
    poolBounded (putFreeConn p a c).1 := by
  unfold putFreeConn
  by_cases hge : (poolLookup p a).length ≥ maxIdleConnsPerAddr
  · simpa [hge] using h
  · intro b
    by_cases hb : a = b
    · subst hb
      simp [hge, poolLookup_poolSet_self]
      omega
    · simpa [hge, poolLookup_poolSet_ne p a b _ hb] using h b

theorem poolBounded_get (p : Pool) (a : Nat) (h : poolBounded p) :
    poolBounded (getFreeConn p a).2 := by
  unfold getFreeConn
  by_cases he : (poolLookup p a).isEmpty
  · simpa [he] using h
  · intro b
    by_cases hb : a = b
    · subst hb
      simp [he, poolLookup_poolSet_self]
      have := h a
      have hd := List.length_dropLast (poolLookup p a)
      omega
    · simpa [he, poolLookup_poolSet_ne p a b _ hb] using h b

theorem poolBounded_run (p : Pool) (ops : List PoolOp) (h : poolBounded p) :
    poolBounded (runPoolOps p ops) := by
  induction ops generalizing p with
  | nil => simpa [runPoolOps] using h
  | cons op rest ih =>
    cases op with
    | put a c => exact ih _ (poolBounded_put p a c h)
    | get a => exact ih _ (poolBounded_get p a h)

/-- Claim C5: the per-address idle free list never exceeds
`maxIdleConnsPerAddr` (= 2) connections: `putFreeConn` appends the
connection when the list holds fewer than 2 entries, otherwise closes
its transport and leaves the pool unchanged, and every pool reachable
from the empty pool by put/get interactions keeps every list within the
cap. -/
theorem putFreeConn_spec (p : Pool) (addr cn : Nat) (ops : List PoolOp) :
    ((poolLookup p addr).length < maxIdleConnsPerAddr →
      putFreeConn p addr cn = (poolSet p addr (poolLookup p addr ++ [cn]), [])) ∧
    ((poolLookup p addr).length ≥ maxIdleConnsPerAddr →
      putFreeConn p addr cn = (p, [cn])) ∧
    (∀ a, (poolLookup (runPoolOps [] ops) a).length ≤ maxIdleConnsPerAddr) := by
  refine ⟨?_, ?_, poolBounded_run [] ops poolBounded_nil⟩
  · intro hlt
    have : ¬ (poolLookup p addr).length ≥ maxIdleConnsPerAddr := by omega
    simp [putFreeConn, this]
  · intro hge
    simp [putFreeConn, hge]

/-- Witness for C5 at concrete inputs: an append below the cap and a
reachable pool respecting the cap. -/
theorem putFreeConn_spec_w :
    ((poolLookup [(0, [5])] 0).length < maxIdleConnsPerAddr) ∧
    putFreeConn [(0, [5])] 0 7 = ([(0, [5, 7])], []) ∧
    (poolLookup (runPoolOps [] [.put 0 1, .put 0 2, .put 0 3]) 0).length ≤ maxIdleConnsPerAddr := by
  refine ⟨by decide, ?_, (putFreeConn_spec [(0, [5])] 0 7 [.put 0 1, .put 0 2, .put 0 3]).2.2 0⟩
  have h := (putFreeConn_spec [(0, [5])] 0 7 [.put 0 1, .put 0 2, .put 0 3]).1 (by decide)
  simpa using h

/-- Claim C8: the per-address idle pool is a LIFO stack: a release below
the cap appends at the tail and the next acquisition for that address
removes from the tail, so after releasing `c1` then `c2` to an address
whose list was empty, the next acquisition returns `c2` and the pool
reverts to its state after releasing `c1`. -/
theorem pool_lifo (p : Pool) (addr c1 c2 : Nat) :
    ((poolLookup p addr).length < maxIdleConnsPerAddr →
      getFreeConn (putFreeConn p addr c2).1 addr =
        (some c2, poolSet p addr (poolLookup p addr))) ∧
    (poolLookup p addr = [] →
      getFreeConn (putFreeConn (putFreeConn p addr c1).1 addr c2).1 addr =
        (some c2, (putFreeConn p addr c1).1)) := by
  have step : ∀ (q : Pool) (c : Nat), (poolLookup q addr).length < maxIdleConnsPerAddr →
      getFreeConn (putFreeConn q addr c).1 addr =
        (some c, poolSet q addr (poolLookup q addr)) := by
    intro q c hlt
    have hne : ¬ (poolLookup q addr).length ≥ maxIdleConnsPerAddr := by omega
    simp only [putFreeConn, hne, if_false, getFreeConn, poolLookup_poolSet_self, ge_iff_le]
    simp [poolSet_poolSet]
  refine ⟨step p c2, ?_⟩
  intro hnil
  have h1 : putFreeConn p addr c1 = (poolSet p addr [c1], []) := by
    unfold putFreeConn
    rw [hnil]
    simp [maxIdleConnsPerAddr]
  have h2 := step (poolSet p addr [c1]) c2
    (by simp [poolLookup_poolSet_self, maxIdleConnsPerAddr])
  rw [h1]
  simp only [h2, poolLookup_poolSet_self, poolSet_poolSet]

/-- Witness for C8 at concrete inputs: two releases then an acquisition
returning the more recently released connection. -/
theorem pool_lifo_w :
    (poolLookup ([] : Pool) 0 = []) ∧
    getFreeConn (putFreeConn (putFreeConn [] 0 1).1 0 2).1 0 =
      (some 2, (putFreeConn [] 0 1).1) :=
  ⟨by decide, (pool_lifo [] 0 1 2).2 (by decide)⟩

/-- Counterexample for C3 as stated: the source accepts the empty key
(`legalKey("") = true`) although the claim requires `1 ≤ len(k)`. -/
theorem legalKey_empty_cex :
    legalKey [] = true ∧ ¬ (1 ≤ ([] : List Nat).length) := by decide

/-- Claim C3 (amended): `legalKey(k)` is true iff `len(k) ≤ 250` and
every byte `b` of `k` satisfies `0x20 < b ≤ 0x7E`; the empty key is
accepted (the `1 ≤ len(k)` lower bound of the original claim does not
hold in the source). -/
theorem legalKey_iff (k : List Nat) :
    legalKey k = true ↔ (k.length ≤ 250 ∧ ∀ b ∈ k, 32 < b ∧ b ≤ 126) := by
  unfold legalKey
  by_cases h : k.length > 250
  · simp only [h, if_true]
    constructor
    · intro hfalse; cases hfalse
    · intro ⟨hle, _⟩; omega
  · have hle : k.length ≤ 250 := by omega
    simp only [h, if_false, hle, true_and, List.all_eq_true]
    apply forall_congr'
    intro b
    constructor
    · intro hb hmem
      have := hb hmem
      simp only [Bool.not_eq_true', Bool.or_eq_false_iff, decide_eq_false_iff_not] at this
      omega
    · intro hb hmem
      have := hb hmem
      simp only [Bool.not_eq_true', Bool.or_eq_false_iff, decide_eq_false_iff_not]
      omega

/-- Claim C4: `condRelease` returns the connection to the pool iff the
final error is nil or one of the four resumable protocol errors
(cache miss, CAS conflict, not-stored, malformed key); for every other
error it closes the transport instead. -/
theorem condRelease_iff (e : Option Err) :
    (condRelease e = ConnAction.release ↔
      (e = none ∨ e = some .errCacheMiss ∨ e = some .errCASConflict ∨
        e = some .errNotStored ∨ e = some .errMalformedKey)) ∧
    (condRelease e = ConnAction.close ↔
      ¬ (e = none ∨ e = some .errCacheMiss ∨ e = some .errCASConflict ∨
        e = some .errNotStored ∨ e = some .errMalformedKey)) := by
  cases e with
  | none => simp [condRelease]
  | some x => cases x <;> simp [condRelease, resumableError]

/-! ## Helper lemmas about the get-response parser -/

theorem readLine_append (lbody rest : List Nat) (h : 10 ∉ lbody) :
    readLine (lbody ++ 10 :: rest) = some (lbody ++ [10], rest) := by
  induction lbody with
  | nil => simp [readLine]
  | cons b t ih =>
    have hb : ¬ b = 10 := by
      intro hb; exact h (by simp [hb])
    have ht : 10 ∉ t := by
      intro hm; exact h (by simp [hm])
    simp [readLine, hb, ih ht]

/-- One loop iteration of `parseGetResponse` on a record whose header
line scans to a declared size: the `size+2` bytes read after the header
either end in `\r\n` (deliver the truncated value, keep parsing) or do
not (fail with the corrupt-read error). -/
theorem parseGo_record (fuel : Nat) (lbody rest : List Nat) (it : Item) (size : Nat)
    (h10 : 10 ∉ lbody)
    (hend : lbody ++ [10] ≠ resultEnd)
    (hscan : scanGetResponseLine (lbody ++ [10]) = .ok (it, size)) :
    parseGo (fuel + 1) (lbody ++ 10 :: rest) =
      if crlf.isSuffixOf (rest.take (size + 2)) then
        ({ it with Value := (rest.take (size + 2)).take size } ::
            (parseGo fuel (rest.drop (size + 2))).1,
          (parseGo fuel (rest.drop (size + 2))).2)
      else ([], some .corruptGetResult) := by
  simp only [parseGo, readLine_append lbody rest h10, hend, hscan, if_false]

/-- Claim C7: when the `size+2` bytes read after a `VALUE` header do not
end with `\r\n`, response parsing fails with the corrupt-read error
instead of delivering the item; that error is server-error-class and is
not resumable, so `condRelease` closes the transport. -/
theorem parseGetResponse_corrupt (lbody rest : List Nat) (it : Item) (size : Nat)
    (h10 : 10 ∉ lbody)
    (hend : lbody ++ [10] ≠ resultEnd)
    (hscan : scanGetResponseLine (lbody ++ [10]) = .ok (it, size))
    (hsuf : crlf.isSuffixOf (rest.take (size + 2)) = false) :
    parseGetResponse (lbody ++ 10 :: rest) = ([], some .corruptGetResult) ∧
    isServerErrorKind .corruptGetResult = true ∧
    resumableError .corruptGetResult = false ∧
    condRelease (some .corruptGetResult) = ConnAction.close := by
  refine ⟨?_, rfl, rfl, rfl⟩
  unfold parseGetResponse
  rw [show (lbody ++ 10 :: rest).length + 1 = (lbody ++ 10 :: rest).length + 1 from rfl]
  rw [parseGo_record ((lbody ++ 10 :: rest).length) lbody rest it size h10 hend hscan]
  simp [hsuf]

/-- Witness for C7 at a concrete input: header `VALUE k 0 5`, followed
by seven bytes that do not end in `\r\n`. -/
theorem parseGetResponse_corrupt_w :
    (10 ∉ [86, 65, 76, 85, 69, 32, 107, 32, 48, 32, 53, 13]) ∧
    crlf.isSuffixOf (([97, 98, 99, 100, 101, 126, 126] : List Nat).take (5 + 2)) = false ∧
    parseGetResponse ([86, 65, 76, 85, 69, 32, 107, 32, 48, 32, 53, 13] ++
        10 :: [97, 98, 99, 100, 101, 126, 126]) = ([], some .corruptGetResult) :=
  ⟨by decide, by decide,
    (parseGetResponse_corrupt [86, 65, 76, 85, 69, 32, 107, 32, 48, 32, 53, 13]
      [97, 98, 99, 100, 101, 126, 126]
      { Key := [107], Value := [], Flags := 0, Expiration := 0, casid := 0 } 5
      (by decide) (by decide) rfl (by decide)).1⟩

/-- Counterexample for C9 as stated: on the stream
`VALUE k 0 10\r\nab\r\n` (end of stream after four payload bytes) the
suffix check passes although only 4 < 10 payload bytes were read, and
the item is delivered with a 4-byte value for a header that declared
size 10 (in Go, `it.Value[:10]` then reslices past the data actually
read). -/
theorem parseGetResponse_short_read_cex :
    scanGetResponseLine [86, 65, 76, 85, 69, 32, 107, 32, 48, 32, 49, 48, 13, 10] =
      .ok ({ Key := [107], Value := [], Flags := 0, Expiration := 0, casid := 0 }, 10) ∧
    crlf.isSuffixOf (([97, 98, 13, 10] : List Nat).take (10 + 2)) = true ∧
    (([97, 98, 13, 10] : List Nat).take (10 + 2)).length < 10 ∧
    parseGetResponse [86, 65, 76, 85, 69, 32, 107, 32, 48, 32, 49, 48, 13, 10, 97, 98, 13, 10] =
      ([{ Key := [107], Value := [97, 98, 13, 10], Flags := 0, Expiration := 0, casid := 0 }],
        some .ioError) ∧
    ([97, 98, 13, 10] : List Nat).length < 10 :=
  ⟨rfl, by decide, by decide, by decide, by decide⟩

/-- Claim C9 (amended): when the stream still holds at least `size+2`
bytes after the `VALUE` header and the trailing-`\r\n` check passes,
exactly `size+2` bytes are read, so the delivered value is exactly
`size` bytes and the truncation is in range; but on a stream truncated
by end-of-stream the read may return fewer than `size` bytes with the
suffix check still passing, and the item is then delivered with a value
shorter than `size` (the Go reslice `it.Value[:size]` reaches past the
bytes actually read). -/
theorem parseGetResponse_sized (lbody rest : List Nat) (it : Item) (size : Nat)
    (h10 : 10 ∉ lbody)
    (hend : lbody ++ [10] ≠ resultEnd)
    (hscan : scanGetResponseLine (lbody ++ [10]) = .ok (it, size))
    (hlen : size + 2 ≤ rest.length)
    (hsuf : crlf.isSuffixOf (rest.take (size + 2)) = true) :
    ∃ items err,
      parseGetResponse (lbody ++ 10 :: rest) =
        ({ it with Value := (rest.take (size + 2)).take size } :: items, err) ∧
      ((rest.take (size + 2)).take size).length = size := by
  refine ⟨(parseGo ((lbody ++ 10 :: rest).length) (rest.drop (size + 2))).1,
    (parseGo ((lbody ++ 10 :: rest).length) (rest.drop (size + 2))).2, ?_, ?_⟩
  · unfold parseGetResponse
    rw [parseGo_record ((lbody ++ 10 :: rest).length) lbody rest it size h10 hend hscan]
    simp [hsuf]
  · simp only [List.length_take]
    omega

/-- Witness for C9 (amended) at a concrete input: header `VALUE k 0 2`,
payload `hi\r\n`, then `END\r\n`. -/
theorem parseGetResponse_sized_w :
    (2 + 2 ≤ ([104, 105, 13, 10, 69, 78, 68, 13, 10] : List Nat).length) ∧
    crlf.isSuffixOf (([104, 105, 13, 10, 69, 78, 68, 13, 10] : List Nat).take (2 + 2)) = true ∧
    (∃ items err,
      parseGetResponse ([86, 65, 76, 85, 69, 32, 107, 32, 48, 32, 50, 13] ++
          10 :: [104, 105, 13, 10, 69, 78, 68, 13, 10]) =
        ({ Key := [107],
            Value := (([104, 105, 13, 10, 69, 78, 68, 13, 10] : List Nat).take (2 + 2)).take 2,
            Flags := 0, Expiration := 0, casid := 0 } :: items, err) ∧
      ((([104, 105, 13, 10, 69, 78, 68, 13, 10] : List Nat).take (2 + 2)).take 2).length = 2) :=
  ⟨by decide, by decide,
    parseGetResponse_sized [86, 65, 76, 85, 69, 32, 107, 32, 48, 32, 50, 13]
      [104, 105, 13, 10, 69, 78, 68, 13, 10]
      { Key := [107], Value := [], Flags := 0, Expiration := 0, casid := 0 } 2
      (by decide) (by decide) rfl (by decide) (by decide)⟩

/-- Claim C6: for every store verb and every single response line, the
operation's result under a legal key is classified exactly as the
protocol table prescribes: `STORED` is success, `NOT_STORED` is
`ErrNotStored`, `EXISTS` is `ErrCASConflict`, `NOT_FOUND` is
`ErrCacheMiss`, and any other line is a server-error-class error. -/
theorem populateOne_classification (verb : Verb) (item : Item) (line : List Nat)
    (hk : legalKey item.Key = true) :
    (populateOne verb item (.ok line) = none ↔ line = resultStored) ∧
    (populateOne verb item (.ok line) = some .errNotStored ↔ line = resultNotStored) ∧
    (populateOne verb item (.ok line) = some .errCASConflict ↔ line = resultExists) ∧
    (populateOne verb item (.ok line) = some .errCacheMiss ↔ line = resultNotFound) ∧
    ((line ≠ resultStored ∧ line ≠ resultNotStored ∧ line ≠ resultExists ∧
        line ≠ resultNotFound) →
      ∃ e, populateOne verb item (.ok line) = some e ∧ isServerErrorKind e = true) := by
  have hpop : populateOne verb item (.ok line) = classifyStore verb line := by
    simp [populateOne, hk]
  have nSN : ¬ resultStored = resultNotStored := by decide
  have nSE : ¬ resultStored = resultExists := by decide
  have nSF : ¬ resultStored = resultNotFound := by decide
  have nNS : ¬ resultNotStored = resultStored := by decide
  have nNE : ¬ resultNotStored = resultExists := by decide
  have nNF : ¬ resultNotStored = resultNotFound := by decide
  have nES : ¬ resultExists = resultStored := by decide
  have nEN : ¬ resultExists = resultNotStored := by decide
  have nEF : ¬ resultExists = resultNotFound := by decide
  have nFS : ¬ resultNotFound = resultStored := by decide
  have nFN : ¬ resultNotFound = resultNotStored := by decide
  have nFE : ¬ resultNotFound = resultExists := by decide
  simp only [hpop]
  unfold classifyStore
  by_cases h1 : line = resultStored
  · subst h1
    refine ⟨by simp [nSN, nSE, nSF, nNS, nNE, nNF, nES, nEN, nEF, nFS, nFN, nFE], by simp [nSN, nSE, nSF, nNS, nNE, nNF, nES, nEN, nEF, nFS, nFN, nFE], by simp [nSN, nSE, nSF, nNS, nNE, nNF, nES, nEN, nEF, nFS, nFN, nFE], by simp [nSN, nSE, nSF, nNS, nNE, nNF, nES, nEN, nEF, nFS, nFN, nFE], by simp [nSN, nSE, nSF, nNS, nNE, nNF, nES, nEN, nEF, nFS, nFN, nFE]⟩
  · by_cases h2 : line = resultNotStored
    · subst h2
      refine ⟨by simp [nSN, nSE, nSF, nNS, nNE, nNF, nES, nEN, nEF, nFS, nFN, nFE], by simp [nSN, nSE, nSF, nNS, nNE, nNF, nES, nEN, nEF, nFS, nFN, nFE], by simp [nSN, nSE, nSF, nNS, nNE, nNF, nES, nEN, nEF, nFS, nFN, nFE], by simp [nSN, nSE, nSF, nNS, nNE, nNF, nES, nEN, nEF, nFS, nFN, nFE], by simp [nSN, nSE, nSF, nNS, nNE, nNF, nES, nEN, nEF, nFS, nFN, nFE]⟩
    · by_cases h3 : line = resultExists
      · subst h3
        refine ⟨by simp [nSN, nSE, nSF, nNS, nNE, nNF, nES, nEN, nEF, nFS, nFN, nFE], by simp [nSN, nSE, nSF, nNS, nNE, nNF, nES, nEN, nEF, nFS, nFN, nFE], by simp [nSN, nSE, nSF, nNS, nNE, nNF, nES, nEN, nEF, nFS, nFN, nFE], by simp [nSN, nSE, nSF, nNS, nNE, nNF, nES, nEN, nEF, nFS, nFN, nFE], by simp [nSN, nSE, nSF, nNS, nNE, nNF, nES, nEN, nEF, nFS, nFN, nFE]⟩
      · by_cases h4 : line = resultNotFound
        · subst h4
          refine ⟨by simp [nSN, nSE, nSF, nNS, nNE, nNF, nES, nEN, nEF, nFS, nFN, nFE], by simp [nSN, nSE, nSF, nNS, nNE, nNF, nES, nEN, nEF, nFS, nFN, nFE], by simp [nSN, nSE, nSF, nNS, nNE, nNF, nES, nEN, nEF, nFS, nFN, nFE], by simp [nSN, nSE, nSF, nNS, nNE, nNF, nES, nEN, nEF, nFS, nFN, nFE], by simp [nSN, nSE, nSF, nNS, nNE, nNF, nES, nEN, nEF, nFS, nFN, nFE]⟩
        · refine ⟨by simp [h1, h2, h3, h4], by simp [h1, h2, h3, h4],
            by simp [h1, h2, h3, h4], by simp [h1, h2, h3, h4], ?_⟩
          intro _
          simp only [h1, h2, h3, h4, if_false]
          exact ⟨_, rfl, rfl⟩

/-- Witness for C6 at concrete inputs: a legal key with the
`NOT_STORED` response line. -/
theorem populateOne_classification_w :
    legalKey [107] = true ∧
    populateOne Verb.add { Key := [107], Value := [], Flags := 0, Expiration := 0, casid := 0 }
      (.ok resultNotStored) = some .errNotStored :=
  ⟨by decide,
    (populateOne_classification Verb.add
      { Key := [107], Value := [], Flags := 0, Expiration := 0, casid := 0 }
      resultNotStored (by decide)).2.1.mpr rfl⟩

/-! ## Helper lemmas about the GetMulti result map -/

theorem addItemsToMap_nil (m : List (List Nat × Item)) : addItemsToMap m [] = m := rfl

theorem addItemsToMap_cons (m : List (List Nat × Item)) (it : Item) (its : List Item) :
    addItemsToMap m (it :: its) = addItemsToMap (mapInsert m it.Key it) its := rfl

theorem mapLookup_mapInsert_self (m : List (List Nat × Item)) (k : List Nat) (v : Item) :
    mapLookup (mapInsert m k v) k = some v := by
  induction m with
  | nil => simp [mapInsert, mapLookup]
  | cons hd t ih =>
    obtain ⟨k0, v0⟩ := hd
    by_cases hk : k0 = k <;> simp [mapInsert, mapLookup, hk, ih]

theorem mapLookup_mapInsert_ne (m : List (List Nat × Item)) (k q : List Nat) (v : Item)
    (h : k ≠ q) : mapLookup (mapInsert m k v) q = mapLookup m q := by
  induction m with
  | nil => simp [mapInsert, mapLookup, h]
  | cons hd t ih =>
    obtain ⟨k0, v0⟩ := hd
    by_cases hk : k0 = k
    · subst hk; simp [mapInsert, mapLookup, h]
    · simp [mapInsert, mapLookup, hk, ih]

theorem mapLookup_mapInsert_isSome (m : List (List Nat × Item)) (k q : List Nat) (v : Item)
    (h : (mapLookup m q).isSome = true) :
    (mapLookup (mapInsert m k v) q).isSome = true := by
  by_cases hk : k = q
  · subst hk; simp [mapLookup_mapInsert_self]
  · rw [mapLookup_mapInsert_ne m k q v hk]; exact h

theorem addItemsToMap_isSome_mono (items : List Item) :
    ∀ (m : List (List Nat × Item)) (q : List Nat), (mapLookup m q).isSome = true →
      (mapLookup (addItemsToMap m items) q).isSome = true := by
  induction items with
  | nil => intro m q h; simpa [addItemsToMap_nil] using h
  | cons it its ih =>
    intro m q h
    rw [addItemsToMap_cons]
    exact ih _ q (mapLookup_mapInsert_isSome m it.Key q it h)

theorem addItemsToMap_mem (items : List Item) :
    ∀ (m : List (List Nat × Item)), ∀ it ∈ items,
      (mapLookup (addItemsToMap m items) it.Key).isSome = true := by
  induction items with
  | nil => intro m it hit; cases hit
  | cons it0 its ih =>
    intro m it hit
    rw [addItemsToMap_cons]
    rcases List.mem_cons.mp hit with hEq | hm
    · subst hEq
      exact addItemsToMap_isSome_mono its _ it.Key
        (by simp [mapLookup_mapInsert_self])
    · exact ih _ it hm

theorem runTasksGo_isSome_mono (env : OpEnv) (groups : List (Nat × List (List Nat))) :
    ∀ (m : List (List Nat × Item)) (err : Option Err) (q : List Nat),
      (mapLookup m q).isSome = true →
      (mapLookup (runTasksGo env m err groups).1 q).isSome = true := by
  induction groups with
  | nil => intro m err q h; simpa [runTasksGo] using h
  | cons g rest ih =>
    intro m err q h
    obtain ⟨addr, ks⟩ := g
    simp only [runTasksGo]
    exact ih _ _ q (addItemsToMap_isSome_mono _ m q h)

theorem runTasksGo_contains (env : OpEnv) (groups : List (Nat × List (List Nat))) :
    ∀ (m : List (List Nat × Item)) (err : Option Err), ∀ p ∈ groups,
      ∀ it ∈ (getFromAddr env p.1).1,
      (mapLookup (runTasksGo env m err groups).1 it.Key).isSome = true := by
  induction groups with
  | nil => intro m err p hp; cases hp
  | cons g rest ih =>
    intro m err p hp it hit
    obtain ⟨addr, ks⟩ := g
    rcases List.mem_cons.mp hp with hEq | hm
    · subst hEq
      simp only [runTasksGo]
      exact runTasksGo_isSome_mono env rest _ _ it.Key (addItemsToMap_mem _ m it hit)
    · simp only [runTasksGo]
      exact ih _ _ p hm it hit

/-- An environment for the closed instances: every key maps to server 0,
connections succeed, a store answers `STORED\r\n`, a `gets` answers the
empty stream. -/
def env0 : OpEnv :=
  { pick := fun _ => .ok 0
    conn := fun _ => .ok ()
    line := fun _ => .ok resultStored
    stream := fun _ => [] }

/-- An item whose key is the single space byte, which `legalKey`
rejects. -/
def badItem : Item :=
  { Key := [32], Value := [], Flags := 0, Expiration := 0, casid := 0 }

/-- Counterexample for C1 as stated: `Set` with an illegal key still
returns `ErrMalformedKey`, but only after asking the selector and
acquiring a connection — the event trace is not empty, contradicting
"before asking the selector for an address and before acquiring or
dialing any connection" (`onItem` runs `PickServer` and `getConn`, and
only then does `populateOne` check `legalKey`). -/
theorem storeOp_contacts_selector_cex :
    legalKey badItem.Key = false ∧
    SetOp env0 badItem = (some .errMalformedKey, [.pick [32], .conn 0]) ∧
    ([Ev.pick [32], Ev.conn 0] : List Ev) ≠ [] :=
  ⟨by decide, by decide, by decide⟩

/-- Claim C1 (amended): with an illegal key, Get, Delete, Increment and
Decrement return `ErrMalformedKey` before asking the selector and
before acquiring any connection (empty trace), while Set, Add and
CompareAndSwap also return `ErrMalformedKey` (when the selector and the
connection succeed) but only after asking the selector and acquiring a
connection. -/
theorem illegalKey_ops (env : OpEnv) (key : List Nat) (item : Item) (addr : Nat) (delta : Nat)
    (hk : legalKey key = false) (hi : legalKey item.Key = false)
    (hp : env.pick item.Key = .ok addr) (hc : env.conn addr = .ok ()) :
    GetOp env key = ((none, some .errMalformedKey), []) ∧
    DeleteOp env key = (some .errMalformedKey, []) ∧
    IncrementOp env key delta = ((0, some .errMalformedKey), []) ∧
    DecrementOp env key delta = ((0, some .errMalformedKey), []) ∧
    SetOp env item = (some .errMalformedKey, [.pick item.Key, .conn addr]) ∧
    AddOp env item = (some .errMalformedKey, [.pick item.Key, .conn addr]) ∧
    CasOp env item = (some .errMalformedKey, [.pick item.Key, .conn addr]) := by
  refine ⟨?_, ?_, ?_, ?_, ?_, ?_, ?_⟩ <;>
    simp [GetOp, DeleteOp, IncrementOp, DecrementOp, incrDecrOp, SetOp, AddOp, CasOp,
      onItemOp, populateOne, hk, hi, hp, hc]

/-- Witness for C1 (amended) at concrete inputs. -/
theorem illegalKey_ops_w :
    legalKey [32] = false ∧
    GetOp env0 [32] = ((none, some .errMalformedKey), []) ∧
    SetOp env0 badItem = (some .errMalformedKey, [.pick [32], .conn 0]) := by
  have h := illegalKey_ops env0 [32] badItem 0 1 (by decide) (by decide) rfl rfl
  exact ⟨by decide, h.1, h.2.2.2.2.1⟩

/-- Counterexample for C2 as stated: `GetMulti` on a list holding one
illegal key returns Go's nil map (`return nil, ErrMalformedKey`), so
the returned map is not non-nil for every input key list. -/
theorem getMulti_nil_map_cex :
    getMulti env0 [[32]] = (none, some .errMalformedKey) ∧
    (getMulti env0 [[32]]).1 = none :=
  ⟨by decide, by decide⟩

/-- Claim C2 (amended): whenever the key-bucketing phase succeeds (all
keys legal and the selector resolves each), the map `GetMulti` returns
is non-nil and contains an entry for every item any per-address
sub-task delivered — also when some sub-task failed and the call
returns its non-nil error; when bucketing itself fails the source
instead returns a nil map with the error. -/
theorem getMulti_partial (env : OpEnv) (keys : List (List Nat))
    (groups : List (Nat × List (List Nat)))
    (h : buildKeyMap env keys = .ok groups) :
    ∃ m err, getMulti env keys = (some m, err) ∧
      ∀ p ∈ groups, ∀ it ∈ (getFromAddr env p.1).1,
        (mapLookup m it.Key).isSome = true := by
  refine ⟨(runTasksGo env [] none groups).1, (runTasksGo env [] none groups).2, ?_, ?_⟩
  · simp [getMulti, h]
  · intro p hp it hit
    exact runTasksGo_contains env groups [] none p hp it hit

/-- An environment for the C2 witness: key `a` is served by address 0,
every other key by address 1; server 0 answers one well-formed record,
server 1 answers a malformed line (its sub-task fails). -/
def envW : OpEnv :=
  { pick := fun k => .ok (if k = [97] then 0 else 1)
    conn := fun _ => .ok ()
    line := fun _ => .ok resultStored
    stream := fun a =>
      if a = 0 then
        [86, 65, 76, 85, 69, 32, 97, 32, 48, 32, 49, 13, 10, 120, 13, 10, 69, 78, 68, 13, 10]
      else [70, 13, 10] }

/-- Witness for C2 (amended) at concrete inputs: two keys on two
servers, one sub-task failing, the other delivering an item. -/
theorem getMulti_partial_w :
    buildKeyMap envW [[97], [98]] = .ok [(0, [[97]]), (1, [[98]])] ∧
    (∃ m err, getMulti envW [[97], [98]] = (some m, err) ∧
      ∀ p ∈ ([(0, [[97]]), (1, [[98]])] : List (Nat × List (List Nat))),
        ∀ it ∈ (getFromAddr envW p.1).1,
        (mapLookup m it.Key).isSome = true) :=
  ⟨rfl, getMulti_partial envW [[97], [98]] [(0, [[97]]), (1, [[98]])] rfl⟩

/-- Claim C10: `GetMulti` of an empty key list returns a non-nil empty
map and a nil error, and does so identically in every environment — the
result does not depend on the selector, on connection outcomes or on
any server bytes, so no selector call, connection acquisition or I/O
influences it. -/
theorem getMulti_empty_keys (env : OpEnv) : getMulti env [] = (some [], none) := rfl
